import Mathlib

/-!
Verification development for the clawd-dashboard gateway client.

Shallow embedding of:
- `src/gateway/crypto.ts` (`buildDeviceAuth`, `buf2b64url`),
- `src/gateway/client.ts` (`connect`, `disconnect`, `handleFrame`,
  `doHandshake`, `request`),
- `src/store/gateway.ts` (`onChat`, `extractContent`, `sendMessage`).

JavaScript machine effects (callback invocations, frames written to the
socket, promise settlements) are made explicit as an `Effect` trace; the
mutable fields of `GatewayClient` and of the zustand store become record
fields threaded through pure functions.
-/

/-! ### Data model (`src/gateway/types.ts`) -/

/-- `ChatMessage.role`: `'user' | 'assistant' | 'system'`. -/
inductive Role where
  | user
  | assistant
  | system
deriving DecidableEq, Repr

/-- `ChatMessage` from `types.ts`.  The optional JS booleans `partial` and
`aborted` are embedded as `Bool` (absent = `false`: every use in the code is
a truthiness test or an assignment of a literal).  `partial` is a Lean
keyword, so the field is named `isPartial`.  `toolCalls` is omitted: none of
the embedded operations read or write it. -/
structure ChatMessage where
  role : Role
  content : String
  runId : Option String := none
  ts : Nat := 0
  aborted : Bool := false
  isPartial : Bool := false
deriving DecidableEq, Repr

/-- One entry of a segment-list message content:
`{ type: string; text?: string }`. -/
structure TextSegment where
  type : String
  text : Option String := none
deriving DecidableEq, Repr

/-- The `message.content` payload of a chat event: a plain string, a list of
typed segments, or anything else (absent / other JS type). -/
inductive MsgContent where
  | str (s : String)
  | segs (l : List TextSegment)
  | other
deriving DecidableEq, Repr

/-- `ChatEvent['payload'].state`. -/
inductive ChatState where
  | delta
  | final
  | aborted
  | error
deriving DecidableEq, Repr

/-- `ChatEvent['payload']`.  `sessionKey` is `Option String` so that the
absent-key case of the JS `payload.sessionKey || activeSessionKey` test is
representable; `message` is the (optional) message object's content. -/
structure ChatPayload where
  runId : String
  sessionKey : Option String := none
  seq : Nat := 0
  state : ChatState
  message : Option MsgContent := none
  errorMessage : Option String := none
deriving DecidableEq, Repr

/-! ### Base64 (`buf2b64url`, `src/gateway/crypto.ts` lines 26-31)

Bytes are `Nat`s below 256 (`Uint8Array` entries).  `btoa` is the standard
base64 encoding of the latin-1 string built from the bytes; we embed it as
6-bit groups looked up in the standard alphabet plus `'='` padding.  Each
6-bit group is reduced `% 64`, a no-op for in-range bytes, which keeps the
encoder total. -/

/-- Standard base64 alphabet used by `btoa`. -/
def stdAlphabet : List Char :=
  "ABCDEFGHIJKLMNOPQRSTUVWXYZabcdefghijklmnopqrstuvwxyz0123456789+/".toList

/-- URL-safe base64 alphabet ('+' ↦ '-', '/' ↦ '_'). -/
def urlAlphabet : List Char :=
  "ABCDEFGHIJKLMNOPQRSTUVWXYZabcdefghijklmnopqrstuvwxyz0123456789-_".toList

def stdChar (n : Nat) : Char := stdAlphabet.getD n 'A'

def urlChar (n : Nat) : Char := urlAlphabet.getD n 'A'

/-- The 6-bit groups of the base64 encoding of a byte list. -/
def sextets : List Nat → List Nat
  | [] => []
  | [a] => [a / 4 % 64, a % 4 * 16 % 64]
  | [a, b] => [a / 4 % 64, (a % 4 * 16 + b / 16) % 64, b % 16 * 4 % 64]
  | a :: b :: c :: rest =>
      a / 4 % 64 :: (a % 4 * 16 + b / 16) % 64 :: (b % 16 * 4 + c / 64) % 64
        :: c % 64 :: sextets rest

/-- Number of `'='` padding characters `btoa` appends for a given input
length. -/
def padCount (len : Nat) : Nat := (3 - len % 3) % 3

/-- `btoa` applied to the latin-1 string of the bytes, as a char list. -/
def btoaChars (bs : List Nat) : List Char :=
  (sextets bs).map stdChar ++ List.replicate (padCount bs.length) '='

/-- The two regex replacements `/\+/g → '-'` and `/\//g → '_'` of
`buf2b64url`, char by char. -/
def swapUrl (ch : Char) : Char :=
  if ch = '+' then '-' else if ch = '/' then '_' else ch

/-- `buf2b64url` (crypto.ts lines 26-31): `btoa(bin)` then replace `+`, `/`
and delete every `=`. -/
def buf2b64url (bs : List Nat) : String :=
  String.mk (((btoaChars bs).map swapUrl).filter (fun ch => ch ≠ '='))

/-- Spec-side description: "URL-safe base64 without padding", encoded
directly from the 6-bit groups with the URL-safe alphabet and no padding. -/
def b64urlNoPad (bs : List Nat) : String :=
  String.mk ((sextets bs).map urlChar)

theorem sextets_lt : ∀ (bs : List Nat), ∀ x ∈ sextets bs, x < 64
  | [] => by simp [sextets]
  | [a] => by
      simp only [sextets, List.mem_cons, List.not_mem_nil, or_false]
      rintro x (rfl | rfl) <;> exact Nat.mod_lt _ (by norm_num)
  | [a, b] => by
      simp only [sextets, List.mem_cons, List.not_mem_nil, or_false]
      rintro x (rfl | rfl | rfl) <;> exact Nat.mod_lt _ (by norm_num)
  | a :: b :: c :: rest => by
      simp only [sextets, List.mem_cons]
      rintro x (rfl | rfl | rfl | rfl | hx)
      · exact Nat.mod_lt _ (by norm_num)
      · exact Nat.mod_lt _ (by norm_num)
      · exact Nat.mod_lt _ (by norm_num)
      · exact Nat.mod_lt _ (by norm_num)
      · exact sextets_lt rest x hx

theorem swapUrl_stdChar : ∀ n < 64, swapUrl (stdChar n) = urlChar n := by
  decide

theorem urlChar_ne_pad : ∀ n < 64, urlChar n ≠ '=' := by
  decide

/-- The replace-and-strip pipeline of `buf2b64url` produces exactly the
URL-safe, unpadded base64 encoding. -/
theorem buf2b64url_eq_b64urlNoPad (bs : List Nat) :
    buf2b64url bs = b64urlNoPad bs := by
  unfold buf2b64url b64urlNoPad btoaChars
  congr 1
  rw [List.map_append, List.filter_append]
  have hmap : ((sextets bs).map stdChar).map swapUrl = (sextets bs).map urlChar := by
    rw [List.map_map]
    exact List.map_congr_left fun x hx => swapUrl_stdChar x (sextets_lt bs x hx)
  rw [hmap]
  have hkeep : ((sextets bs).map urlChar).filter (fun ch => ch ≠ '=') =
      (sextets bs).map urlChar := by
    rw [List.filter_eq_self]
    intro ch hch
    rcases List.mem_map.mp hch with ⟨n, hn, rfl⟩
    simpa using urlChar_ne_pad n (sextets_lt bs n hn)
  have hpad : ((List.replicate (padCount bs.length) '=').map swapUrl).filter
      (fun ch => ch ≠ '=') = [] := by
    rw [List.map_replicate]
    have : swapUrl '=' = '=' := by decide
    rw [this, List.filter_eq_nil_iff]
    intro ch hch
    simp [List.eq_of_mem_replicate hch]
  rw [hkeep, hpad, List.append_nil]

/-! ### Device auth (`buildDeviceAuth`, crypto.ts lines 99-145)

Ed25519 signing over the encoded payload is a platform primitive; it enters
the embedding as an oracle `sign : String → List Nat` from the payload
string to signature bytes.  `Date.now()` enters as the `signedAt`
argument. -/

structure DeviceAuthParams where
  identityId : String
  publicKeyRaw : String
  connectNonce : String
  clientId : String
  clientMode : String
  role : String
  scopes : List String
  token : Option String := none
deriving DecidableEq, Repr

structure DeviceAuthResult where
  id : String
  publicKey : String
  signature : String
  signedAt : Nat
  nonce : String
deriving DecidableEq, Repr

/-- The payload string built by `buildDeviceAuth` (crypto.ts lines 111-123):
`[ 'v2', id, clientId, clientMode, role, scopes.join(','), String(signedAt),
token ?? '', nonce ].join('|')`. -/
def buildAuthPayload (p : DeviceAuthParams) (signedAt : Nat) : String :=
  String.intercalate "|"
    ["v2", p.identityId, p.clientId, p.clientMode, p.role,
     String.intercalate "," p.scopes, toString signedAt,
     p.token.getD "", p.connectNonce]

/-- `buildDeviceAuth` (crypto.ts lines 99-145), with signing abstracted as
the oracle `sign`. -/
def buildDeviceAuth (sign : String → List Nat) (p : DeviceAuthParams)
    (signedAt : Nat) : DeviceAuthResult :=
  { id := p.identityId
    publicKey := p.publicKeyRaw
    signature := buf2b64url (sign (buildAuthPayload p signedAt))
    signedAt := signedAt
    nonce := p.connectNonce }

/-- Spec-side description of the signed payload: the pipe-joined string
"v2" | deviceId | clientId | clientMode | role | comma-joined scopes |
signedAt millis | token (empty when absent) | connect nonce. -/
def specSignedPayload (p : DeviceAuthParams) (signedAt : Nat) : String :=
  "v2" ++ "|" ++ p.identityId ++ "|" ++ p.clientId ++ "|" ++ p.clientMode
    ++ "|" ++ p.role ++ "|" ++ String.intercalate "," p.scopes ++ "|"
    ++ toString signedAt ++ "|" ++ p.token.getD "" ++ "|" ++ p.connectNonce

theorem buildAuthPayload_eq_spec (p : DeviceAuthParams) (signedAt : Nat) :
    buildAuthPayload p signedAt = specSignedPayload p signedAt := by
  simp [buildAuthPayload, specSignedPayload, String.intercalate,
    String.intercalate.go, String.append_assoc]

/-! ### Streaming chat assembler (`src/store/gateway.ts`)

`onChat` runs inside a zustand `set`; the per-session reduction (lines
103-169) becomes `applyChatEvent : SessionChat → ChatPayload → Nat →
SessionChat` (the `Nat` is the value of `Date.now()` at this event), and the
key routing (line 101) plus the map update become `onChatStore`. -/

/-- Per-session chat state (gateway.ts lines 7-11). -/
structure SessionChat where
  messages : List ChatMessage
  streaming : Bool
  streamingRunId : Option String
deriving DecidableEq, Repr

/-- The `?? { messages: [], streaming: false, streamingRunId: null }`
default (gateway.ts lines 55 and 104). -/
def emptyChat : SessionChat := ⟨[], false, none⟩

/-- `extractContent` (gateway.ts lines 307-318): a plain string is returned
as-is; a segment list keeps the `type === 'text'` entries and joins their
`text || ''`; anything else gives `''`. -/
def extractContent : Option MsgContent → String
  | none => ""
  | some (.str s) => s
  | some (.segs l) =>
      String.join ((l.filter (fun seg => seg.type = "text")).map
        (fun seg => seg.text.getD ""))
  | some .other => ""

/-- `Array.prototype.findLastIndex`, as an `Option Nat` (the JS code only
compares the result with `0`). -/
def findLastIdx (p : α → Bool) : List α → Option Nat
  | [] => none
  | a :: as =>
    match findLastIdx p as with
    | some i => some (i + 1)
    | none => if p a then some 0 else none

/-- The `delta` branch guard (gateway.ts line 112):
`last?.role === 'assistant' && last.runId === payload.runId && last.partial`. -/
def matchesPartialRun (m : ChatMessage) (runId : String) : Bool :=
  m.role = Role.assistant && m.runId = some runId && m.isPartial

/-- `payload.errorMessage || 'unknown'` wrapped in the annotation appended
by the `error` branch (gateway.ts line 156). -/
def errorAnnotation (errorMessage : Option String) : String :=
  "\n\n*[Error: " ++
    (match errorMessage with
     | some s => if s = "" then "unknown" else s
     | none => "unknown") ++ "]*"

/-- The body of the zustand `set` in `onChat` restricted to one session's
chat (gateway.ts lines 103-169).  `now` is `Date.now()` at this event. -/
def applyChatEvent (chat : SessionChat) (p : ChatPayload) (now : Nat) :
    SessionChat :=
  match p.state with
  | .delta =>
    let content := extractContent p.message
    let msgs :=
      match chat.messages.getLast? with
      | some last =>
        if matchesPartialRun last p.runId then
          chat.messages.dropLast ++ [{ last with content := last.content ++ content }]
        else if content ≠ "" then
          chat.messages ++ [{ role := Role.assistant
                              content := content
                              runId := some p.runId
                              isPartial := true
                              ts := now }]
        else chat.messages
      | none =>
        if content ≠ "" then
          [{ role := Role.assistant
             content := content
             runId := some p.runId
             isPartial := true
             ts := now }]
        else chat.messages
    { messages := msgs, streaming := true, streamingRunId := some p.runId }
  | .final =>
    let msgs :=
      match findLastIdx (fun m => m.runId = some p.runId) chat.messages with
      | some i =>
        match chat.messages.get? i with
        | some m => chat.messages.set i { m with isPartial := false }
        | none => chat.messages
      | none => chat.messages
    { messages := msgs, streaming := false, streamingRunId := none }
  | .aborted | .error =>
    let msgs :=
      match findLastIdx (fun m => m.runId = some p.runId) chat.messages with
      | some i =>
        match chat.messages.get? i with
        | some m => chat.messages.set i
            { m with isPartial := false
                     aborted := p.state = ChatState.aborted
                     content := if p.state = ChatState.error
                       then m.content ++ errorAnnotation p.errorMessage
                       else m.content }
        | none => chat.messages
      | none => chat.messages
    { messages := msgs, streaming := false, streamingRunId := none }

/-! ### Protocol client (`src/gateway/client.ts`)

The mutable fields of `GatewayClient` become a record; the observable JS
effects of each method (callback invocations via `options.*`, promise
settlements of pending requests, frames written to the socket, closes of
the underlying `WebSocket`) become an explicit `Effect` list returned next
to the updated record.  The single `ws` field is modelled by `wsLive`
(`this.ws !== null`), `wsOpen` (`readyState === OPEN`) and
`oncloseAttached` (`this.ws.onclose !== null`). -/

inductive ClientState where
  | disconnected
  | connecting
  | authenticating
  | connected
  | error
deriving DecidableEq, Repr

inductive Effect where
  | stateChange (s : ClientState)
  | disconnectCb (reason : String)
  | pairingCb
  | resolvedReq (id : String)
  | rejectedReq (id : String) (err : String)
  | frameSent (id : String) (method : String)
  | wsClosed
deriving DecidableEq, Repr

structure Client where
  wsLive : Bool
  wsOpen : Bool
  oncloseAttached : Bool
  pending : List String
  connected : Bool
  state : ClientState
  reqSeq : Nat
deriving DecidableEq, Repr

/-- `isConnected()` (client.ts line 281). -/
def Client.isConnected (c : Client) : Bool :=
  c.connected && c.state = ClientState.connected

/-- `disconnect()` (client.ts lines 85-97): null ALL handlers, close the
socket, clear `ws`, clear `connected`, `setState('disconnected')`.  The
pending-request table is not touched: the rejection sweep lives only in the
`onclose` handler, which was just detached. -/
def Client.disconnect (c : Client) : Client × List Effect :=
  ({ c with wsLive := false
            wsOpen := false
            oncloseAttached := false
            connected := false
            state := ClientState.disconnected },
   (if c.wsLive then [Effect.wsClosed] else []) ++
     [Effect.stateChange ClientState.disconnected])

/-- `connect()` (client.ts lines 42-83): detach the old socket's `onclose`,
close it, drop it; `setState('connecting')`; `connected = false`; construct
a new socket (`ctorOk` = the constructor did not throw) and attach fresh
handlers.  The old socket's close fires no handler (its `onclose` was
nulled first), so nothing sweeps `pending`. -/
def Client.connect (c : Client) (ctorOk : Bool) : Client × List Effect :=
  let closeEffs := if c.wsLive then [Effect.wsClosed] else []
  if ctorOk then
    ({ c with wsLive := true
              wsOpen := false
              oncloseAttached := true
              connected := false
              state := ClientState.connecting },
     closeEffs ++ [Effect.stateChange ClientState.connecting])
  else
    ({ c with wsLive := false
              wsOpen := false
              oncloseAttached := false
              connected := false
              state := ClientState.error },
     closeEffs ++ [Effect.stateChange ClientState.connecting,
                   Effect.stateChange ClientState.error,
                   Effect.disconnectCb "constructor threw"])

/-- An inbound `{type:"res", ...}` frame. -/
structure ResFrame where
  id : String
  ok : Bool
  error : String := ""
deriving DecidableEq, Repr

/-- The `frame.type === 'res'` arm of `handleFrame` (client.ts lines
102-113): look the id up in the pending table; if absent do nothing; if
present delete the entry and settle it according to `frame.ok`. -/
def Client.handleRes (c : Client) (f : ResFrame) : Client × List Effect :=
  if f.id ∈ c.pending then
    ({ c with pending := c.pending.erase f.id },
     [if f.ok then Effect.resolvedReq f.id else Effect.rejectedReq f.id f.error])
  else (c, [])

/-- `request(method, params)` (client.ts lines 217-223): allocate
`req-${++reqSeq}-${Date.now()}`, store the resolver pair, and `send` the
frame — `send` writes only when the socket exists and is OPEN (line 212). -/
def Client.request (c : Client) (method : String) (now : Nat) :
    Client × List Effect :=
  let id := "req-" ++ toString (c.reqSeq + 1) ++ "-" ++ toString now
  ({ c with reqSeq := c.reqSeq + 1
            pending := c.pending ++ [id] },
   if c.wsLive && c.wsOpen then [Effect.frameSent id method] else [])

/-- JS `a || b` on `string | null | undefined` values: first operand unless
it is absent or the empty string. -/
def jsOrStr : Option String → Option String → Option String
  | some s, b => if s = "" then b else some s
  | none, b => b

/-- The auth-token selection of `doHandshake` (client.ts lines 141-142 and
180): `storedToken || options.token || undefined`, then `authToken || ''`
inside the auth block. -/
def handshakeAuthToken (storedToken callerToken : Option String) : String :=
  (jsOrStr (jsOrStr storedToken callerToken) none).getD ""

/-- The connect-request params assembled by `doHandshake` (client.ts lines
162-180), restricted to the fields the spec's claims are about.  `device`
is present only when `buildDeviceAuth` succeeded; `auth` is assigned
unconditionally (line 180). -/
structure ConnectParams where
  device : Option DeviceAuthResult
  auth : Option String
deriving DecidableEq, Repr

def buildConnectParams (storedToken callerToken : Option String)
    (device : Option DeviceAuthResult) : ConnectParams :=
  { device := device
    auth := some (handshakeAuthToken storedToken callerToken) }

/-- JS `String.prototype.includes` on char lists. -/
def isPrefixChars : List Char → List Char → Bool
  | [], _ => true
  | _ :: _, [] => false
  | a :: as, b :: bs => a = b && isPrefixChars as bs

def hasSubChars (needle : List Char) : List Char → Bool
  | [] => isPrefixChars needle []
  | ch :: rest => isPrefixChars needle (ch :: rest) || hasSubChars needle rest

def strIncludes (haystack needle : String) : Bool :=
  hasSubChars needle.toList haystack.toList

/-- The pairing-classification predicate of `doHandshake` (client.ts line
203). -/
def isPairingMsg (msg : String) : Bool :=
  strIncludes msg "pairing" || strIncludes msg "device identity" ||
    strIncludes msg "device_identity" || strIncludes msg "unpaired" ||
    strIncludes msg "not approved"

/-- The `catch` arm of `doHandshake` (client.ts lines 200-208): classify
the error text, maybe fire the pairing callback, then
`setState('error')` and `onDisconnect(msg)`. -/
def handshakeFailEffects (msg : String) : List Effect :=
  (if isPairingMsg msg then [Effect.pairingCb] else []) ++
    [Effect.stateChange ClientState.error, Effect.disconnectCb msg]

/-! ### Store-level routing (`src/store/gateway.ts`) -/

/-- The slice of the zustand store the embedded actions touch.
`sessionChats` is the JS object keyed by session key. -/
structure StoreState where
  client : Option Client
  activeSessionKey : String
  sessionChats : String → Option SessionChat

/-- `onChat` (gateway.ts lines 99-170): route by
`payload.sessionKey || activeSessionKey`, then fold the event into that
session's chat (creating it from the default when absent). -/
def onChatStore (st : StoreState) (p : ChatPayload) (now : Nat) : StoreState :=
  let key :=
    match p.sessionKey with
    | some s => if s = "" then st.activeSessionKey else s
    | none => st.activeSessionKey
  let chat := (st.sessionChats key).getD emptyChat
  { st with sessionChats := fun k =>
      if k = key then some (applyChatEvent chat p now) else st.sessionChats k }

/-- `sendMessage` (gateway.ts lines 219-257), synchronous part: guard on
`client && client.isConnected()`, push the user message and set
`streaming`, then issue the `chat.send` request through the client. -/
def storeSendMessage (st : StoreState) (text : String) (now : Nat) :
    StoreState × List Effect :=
  match st.client with
  | none => (st, [])
  | some c =>
    if c.isConnected then
      let chat := (st.sessionChats st.activeSessionKey).getD emptyChat
      let chat2 := { chat with
        messages := chat.messages ++ [{ role := Role.user
                                        content := text
                                        ts := now }]
        streaming := true }
      let (c2, effs) := c.request "chat.send" now
      ({ st with client := some c2
                 sessionChats := fun k =>
                   if k = st.activeSessionKey then some chat2
                   else st.sessionChats k },
       effs)
    else (st, [])

/-! ### Helper lemmas -/

theorem findLastIdx_none_iff (p : α → Bool) (l : List α) :
    findLastIdx p l = none ↔ ∀ a ∈ l, p a = false := by
  induction l with
  | nil => simp [findLastIdx]
  | cons a as ih =>
    unfold findLastIdx
    cases hs : findLastIdx p as with
    | some i =>
      simp only [reduceCtorEq, false_iff, not_forall]
      have : ¬ ∀ a ∈ as, p a = false := by
        intro hall
        rw [ih.mpr hall] at hs
        exact Option.noConfusion hs
      push_neg at this
      rcases this with ⟨b, hb, hpb⟩
      exact ⟨b, List.mem_cons_of_mem a hb, hpb⟩
    | none =>
      have has := ih.mp hs
      by_cases hpa : p a
      · simp only [hpa, if_true, reduceCtorEq, false_iff, not_forall]
        exact ⟨a, List.mem_cons_self a as, by simp [hpa]⟩
      · simp only [Bool.not_eq_true] at hpa
        simp only [hpa, Bool.false_eq_true, if_false, true_iff]
        intro b hb
        rcases List.mem_cons.mp hb with rfl | hb
        · exact hpa
        · exact has b hb

theorem findLastIdx_some_spec (p : α → Bool) :
    ∀ (l : List α) (i : Nat), findLastIdx p l = some i →
      ∃ m, l.get? i = some m ∧ p m = true ∧
        ∀ j mj, l.get? j = some mj → i < j → p mj = false
  | [], i => by intro h; exact Option.noConfusion h
  | a :: as, i => by
    intro h
    unfold findLastIdx at h
    cases hs : findLastIdx p as with
    | some i' =>
      rw [hs] at h
      injection h with h
      subst h
      rcases findLastIdx_some_spec p as i' hs with ⟨m, hget, hp, hafter⟩
      refine ⟨m, by simpa using hget, hp, ?_⟩
      intro j mj hj hij
      cases j with
      | zero => omega
      | succ j' =>
        simp only [List.get?_cons_succ] at hj
        exact hafter j' mj hj (by omega)
    | none =>
      rw [hs] at h
      by_cases hpa : p a
      · simp only [hpa, if_true] at h
        injection h with h
        subst h
        refine ⟨a, rfl, hpa, ?_⟩
        intro j mj hj hij
        cases j with
        | zero => omega
        | succ j' =>
          simp only [List.get?_cons_succ] at hj
          exact (findLastIdx_none_iff p as).mp hs mj (List.get?_mem hj)
      · simp [hpa] at h

theorem findLastIdx_eq_some_of_spec (p : α → Bool) :
    ∀ (l : List α) (i : Nat) (m : α), l.get? i = some m → p m = true →
      (∀ j mj, l.get? j = some mj → i < j → p mj = false) →
      findLastIdx p l = some i
  | [], i, m => by intro h; exact Option.noConfusion h
  | a :: as, 0, m => by
    intro hget hp hafter
    simp only [List.get?_cons_zero] at hget
    injection hget with hget
    subst hget
    have hnone : findLastIdx p as = none := by
      rw [findLastIdx_none_iff]
      intro b hb
      rcases List.mem_iff_get?.mp hb with ⟨j, hj⟩
      exact hafter (j + 1) b (by simpa using hj) (Nat.succ_pos _)
    unfold findLastIdx
    rw [hnone, if_pos hp]
  | a :: as, i + 1, m => by
    intro hget hp hafter
    simp only [List.get?_cons_succ] at hget
    have ih := findLastIdx_eq_some_of_spec p as i m hget hp ?after
    case after =>
      intro j mj hj hij
      exact hafter (j + 1) mj (by simpa using hj) (by omega)
    unfold findLastIdx
    rw [ih]

/-! ### Delta accumulation (claim C1 machinery) -/

/-- Deliver an ordered sequence of chat events to one session; each event
is paired with the value of `Date.now()` at its arrival. -/
def foldChatEvents (chat : SessionChat) (events : List (ChatPayload × Nat)) :
    SessionChat :=
  events.foldl (fun c e => applyChatEvent c e.1 e.2) chat

/-- The concatenation, in arrival order, of the text extracted from each
event's message payload (the spec's description of the accumulated
content). -/
def concatExtract : List (ChatPayload × Nat) → String
  | [] => ""
  | e :: rest => extractContent e.1.message ++ concatExtract rest

theorem foldChatEvents_matching_last (r : String) :
    ∀ (events : List (ChatPayload × Nat)) (chat : SessionChat)
      (front : List ChatMessage) (last : ChatMessage),
      chat.messages = front ++ [last] →
      matchesPartialRun last r = true →
      (∀ e ∈ events, e.1.state = ChatState.delta ∧ e.1.runId = r) →
      (foldChatEvents chat events).messages =
        front ++ [{ last with content := last.content ++ concatExtract events }]
  | [], chat, front, last => by
    intro hmsgs _ _
    simp only [foldChatEvents, List.foldl_nil, concatExtract, String.append_empty]
    rw [hmsgs]
  | (p, t) :: rest, chat, front, last => by
    intro hmsgs hmatch hall
    obtain ⟨hdelta, hrun⟩ := hall (p, t) (List.mem_cons_self _ _)
    have hall' : ∀ e ∈ rest, e.1.state = ChatState.delta ∧ e.1.runId = r :=
      fun e he => hall e (List.mem_cons_of_mem _ he)
    simp only [foldChatEvents, List.foldl_cons]
    have hrunp : p.runId = r := hrun
    have hstep : (applyChatEvent chat p t).messages =
        front ++ [{ last with content := last.content ++ extractContent p.message }] := by
      unfold applyChatEvent
      rw [hdelta]
      simp only [hmsgs, List.getLast?_concat, hrunp, hmatch, if_true,
        List.dropLast_concat]
    have hlast' : matchesPartialRun
        { last with content := last.content ++ extractContent p.message } r = true := by
      simpa [matchesPartialRun] using hmatch
    have ih := foldChatEvents_matching_last r rest (applyChatEvent chat p t)
      front { last with content := last.content ++ extractContent p.message }
      hstep hlast' hall'
    rw [show (List.foldl (fun c e => applyChatEvent c e.1 e.2)
        (applyChatEvent chat p t) rest) = foldChatEvents (applyChatEvent chat p t) rest
      from rfl, ih]
    simp [concatExtract, String.append_assoc]

/-! ### Claim theorems -/

/-- C4: for every device block built during the handshake, the signed
payload is exactly the pipe-joined string
"v2" | deviceId | clientId | clientMode | role | comma-joined scopes |
signedAt millis | token (empty when absent) | connect nonce, and the
returned signature is the signature bytes encoded as URL-safe base64 with
every '=' padding character removed. -/
theorem c4_signed_payload_format (sign : String → List Nat)
    (p : DeviceAuthParams) (signedAt : Nat) :
    buildAuthPayload p signedAt = specSignedPayload p signedAt ∧
    (buildDeviceAuth sign p signedAt).signature =
      b64urlNoPad (sign (specSignedPayload p signedAt)) := by
  refine ⟨buildAuthPayload_eq_spec p signedAt, ?_⟩
  show buf2b64url (sign (buildAuthPayload p signedAt)) = _
  rw [buildAuthPayload_eq_spec, buf2b64url_eq_b64urlNoPad]

/-- Concrete client used to refute claim C2: one pending request, connected. -/
def c2Client : Client :=
  { wsLive := true
    wsOpen := true
    oncloseAttached := true
    pending := ["req-1"]
    connected := true
    state := ClientState.connected
    reqSeq := 1 }

/-- C2 counterexample: with request "req-1" pending, `disconnect()` does
NOT reject it with the generic "disconnected" error — the entry survives in
the pending table and no rejection effect is produced (the sweep lives only
in the `onclose` handler, which `disconnect` detaches before closing). -/
theorem c2_counterexample :
    "req-1" ∈ c2Client.pending ∧
    Effect.rejectedReq "req-1" "disconnected" ∉ (Client.disconnect c2Client).2 ∧
    (Client.disconnect c2Client).1.pending = ["req-1"] := by
  decide

/-- C2 amended: `disconnect()` detaches all transport handlers, closes the
transport and transitions to 'disconnected' unconditionally, but it leaves
the pending-request table untouched: no entry is rejected. -/
theorem c2_amended_disconnect (c : Client) :
    (Client.disconnect c).1.state = ClientState.disconnected ∧
    (Client.disconnect c).1.connected = false ∧
    (Client.disconnect c).1.wsLive = false ∧
    (Client.disconnect c).1.oncloseAttached = false ∧
    (Client.disconnect c).1.pending = c.pending ∧
    Effect.stateChange ClientState.disconnected ∈ (Client.disconnect c).2 ∧
    ∀ id err, Effect.rejectedReq id err ∉ (Client.disconnect c).2 := by
  unfold Client.disconnect
  refine ⟨rfl, rfl, rfl, rfl, rfl, ?_, ?_⟩
  · by_cases h : c.wsLive <;> simp [h]
  · intro id err
    by_cases h : c.wsLive <;> simp [h]

/-- C2 amended, at a concrete input. -/
theorem c2_amended_witness :
    (Client.disconnect c2Client).1.state = ClientState.disconnected ∧
    (Client.disconnect c2Client).1.pending = c2Client.pending ∧
    Effect.rejectedReq "req-1" "disconnected" ∉ (Client.disconnect c2Client).2 := by
  obtain ⟨h1, -, -, -, h5, -, h7⟩ := c2_amended_disconnect c2Client
  exact ⟨h1, h5, h7 "req-1" "disconnected"⟩

/-- Concrete client used to refute claim C3: a live transport with one
pending request. -/
def c3Client : Client :=
  { wsLive := true
    wsOpen := true
    oncloseAttached := true
    pending := ["req-1"]
    connected := true
    state := ClientState.connected
    reqSeq := 1 }

/-- C3 counterexample: reconnecting while "req-1" is pending on the live
transport leaves "req-1" in the pending table and produces no rejection
effect — the old socket's `onclose` is nulled before the close, so the
sweep never runs. -/
theorem c3_counterexample :
    c3Client.wsLive = true ∧
    "req-1" ∈ c3Client.pending ∧
    Effect.rejectedReq "req-1" "disconnected" ∉ (Client.connect c3Client true).2 ∧
    (Client.connect c3Client true).1.pending = ["req-1"] := by
  decide

/-- C3 amended: calling `connect()` again tears the old transport down
unconditionally (its close handler detached before the close) and leaves
exactly one live transport in the `connecting` state, but requests pending
on the first transport are NOT rejected: the pending table is carried over
unchanged. -/
theorem c3_amended_connect (c : Client) :
    (Client.connect c true).1.wsLive = true ∧
    (Client.connect c true).1.oncloseAttached = true ∧
    (Client.connect c true).1.state = ClientState.connecting ∧
    (c.wsLive = true → Effect.wsClosed ∈ (Client.connect c true).2) ∧
    (Client.connect c true).1.pending = c.pending ∧
    ∀ id err, Effect.rejectedReq id err ∉ (Client.connect c true).2 := by
  unfold Client.connect
  refine ⟨rfl, rfl, rfl, ?_, rfl, ?_⟩
  · intro h; simp [h]
  · intro id err
    by_cases h : c.wsLive <;> simp [h]

/-- C3 amended, at a concrete input. -/
theorem c3_amended_witness :
    (Client.connect c3Client true).1.wsLive = true ∧
    (Client.connect c3Client true).1.pending = c3Client.pending ∧
    Effect.wsClosed ∈ (Client.connect c3Client true).2 ∧
    Effect.rejectedReq "req-1" "disconnected" ∉ (Client.connect c3Client true).2 := by
  obtain ⟨h1, -, -, h4, h5, h6⟩ := c3_amended_connect c3Client
  exact ⟨h1, h5, h4 rfl, h6 "req-1" "disconnected"⟩

/-- C6: an inbound response frame whose id has no pending entry is ignored
without changing the client; a frame with a matching id settles exactly
that entry (resolve on ok, reject otherwise) and removes it from the
table. -/
theorem c6_response_frame_correlation (c : Client) (f : ResFrame) :
    (f.id ∉ c.pending → Client.handleRes c f = (c, [])) ∧
    (f.id ∈ c.pending →
      (Client.handleRes c f).1.pending = c.pending.erase f.id ∧
      (c.pending.Nodup → f.id ∉ (Client.handleRes c f).1.pending) ∧
      (Client.handleRes c f).1.state = c.state ∧
      (Client.handleRes c f).1.connected = c.connected ∧
      (Client.handleRes c f).2 =
        [if f.ok then Effect.resolvedReq f.id
         else Effect.rejectedReq f.id f.error]) := by
  constructor
  · intro hn
    unfold Client.handleRes
    rw [if_neg hn]
  · intro hmem
    unfold Client.handleRes
    rw [if_pos hmem]
    exact ⟨rfl, fun hnd => hnd.not_mem_erase, rfl, rfl, rfl⟩

/-- Concrete client used to instantiate C6. -/
def c6Client : Client :=
  { wsLive := true
    wsOpen := true
    oncloseAttached := true
    pending := ["req-1"]
    connected := true
    state := ClientState.connected
    reqSeq := 1 }

/-- C6, at concrete inputs: a matching frame settles and removes "req-1";
an unknown id leaves the client untouched. -/
theorem c6_witness :
    "req-1" ∈ c6Client.pending ∧
    (Client.handleRes c6Client { id := "req-1", ok := true }).1.pending = [] ∧
    "req-1" ∉ (Client.handleRes c6Client { id := "req-1", ok := true }).1.pending ∧
    (Client.handleRes c6Client { id := "req-1", ok := true }).2 =
      [Effect.resolvedReq "req-1"] ∧
    ("stale" ∉ c6Client.pending ∧
      Client.handleRes c6Client { id := "stale", ok := true } = (c6Client, [])) := by
  have hmem : "req-1" ∈ c6Client.pending := by decide
  have hnod : c6Client.pending.Nodup := by decide
  have hstale : "stale" ∉ c6Client.pending := by decide
  obtain ⟨-, h2⟩ := c6_response_frame_correlation c6Client { id := "req-1", ok := true }
  obtain ⟨hp, hnm, -, -, he⟩ := h2 hmem
  obtain ⟨h1, -⟩ := c6_response_frame_correlation c6Client { id := "stale", ok := true }
  exact ⟨hmem, hp, hnm hnod, he, hstale, h1 hstale⟩

/-- C7 spec-side token priority: the persisted device token when one
exists, else the caller-supplied token when one was given, else the empty
string.  A persisted or supplied empty string is "absent" here, matching
the JS truthiness tests the code uses. -/
def specAuthTokenPriority (storedToken callerToken : Option String) : String :=
  match storedToken with
  | some s => if s = "" then callerToken.getD "" else s
  | none => callerToken.getD ""

/-- C7: the connect request's auth block is always present and carries, in
priority order, the persisted device token, else the caller-supplied
token, else the empty string. -/
theorem c7_auth_block_priority (storedToken callerToken : Option String)
    (device : Option DeviceAuthResult) :
    (buildConnectParams storedToken callerToken device).auth ≠ none ∧
    (buildConnectParams storedToken callerToken device).auth =
      some (specAuthTokenPriority storedToken callerToken) := by
  refine ⟨by simp [buildConnectParams], ?_⟩
  unfold buildConnectParams handshakeAuthToken specAuthTokenPriority jsOrStr
  cases storedToken with
  | none =>
    cases callerToken with
    | none => rfl
    | some t => by_cases ht : t = "" <;> simp [ht]
  | some s =>
    by_cases hs : s = ""
    · cases callerToken with
      | none => simp [hs]
      | some t => by_cases ht : t = "" <;> simp [hs, ht]
    · simp [hs]

/-- C7, at concrete inputs: stored token wins; else caller token; else
empty string — and the auth block exists in each case. -/
theorem c7_witness :
    (buildConnectParams (some "tok-stored") (some "tok-caller") none).auth =
      some "tok-stored" ∧
    (buildConnectParams none (some "tok-caller") none).auth = some "tok-caller" ∧
    (buildConnectParams none none none).auth = some "" ∧
    (buildConnectParams none none none).auth ≠ none := by
  obtain ⟨-, h1⟩ := c7_auth_block_priority (some "tok-stored") (some "tok-caller") none
  obtain ⟨-, h2⟩ := c7_auth_block_priority none (some "tok-caller") none
  obtain ⟨hne, h3⟩ := c7_auth_block_priority none none none
  refine ⟨?_, ?_, ?_, hne⟩
  · rw [h1]; rfl
  · rw [h2]; rfl
  · rw [h3]; rfl

/-- C8: a handshake failure whose error text contains a pairing-related
substring fires the pairing-required callback exactly once, before the
error-state transition and the disconnect report; other failures never
fire it. -/
theorem c8_pairing_callback (msg : String) :
    (isPairingMsg msg = true →
      handshakeFailEffects msg =
        [Effect.pairingCb, Effect.stateChange ClientState.error,
         Effect.disconnectCb msg] ∧
      (handshakeFailEffects msg).count Effect.pairingCb = 1) ∧
    (isPairingMsg msg = false →
      Effect.pairingCb ∉ handshakeFailEffects msg) := by
  constructor
  · intro h
    unfold handshakeFailEffects
    rw [h]
    refine ⟨rfl, ?_⟩
    simp [List.count_cons]
  · intro h
    unfold handshakeFailEffects
    rw [h]
    simp

/-- C8, at concrete inputs: "device not approved" fires the callback once
and first; "socket timeout" never fires it. -/
theorem c8_witness :
    isPairingMsg "device not approved" = true ∧
    handshakeFailEffects "device not approved" =
      [Effect.pairingCb, Effect.stateChange ClientState.error,
       Effect.disconnectCb "device not approved"] ∧
    (handshakeFailEffects "device not approved").count Effect.pairingCb = 1 ∧
    isPairingMsg "socket timeout" = false ∧
    Effect.pairingCb ∉ handshakeFailEffects "socket timeout" := by
  have h1 : isPairingMsg "device not approved" = true := by decide
  have h2 : isPairingMsg "socket timeout" = false := by decide
  obtain ⟨ha, hb⟩ := (c8_pairing_callback "device not approved").1 h1
  exact ⟨h1, ha, hb, h2, (c8_pairing_callback "socket timeout").2 h2⟩

/-- C9: invoking `sendMessage` (the `chat.send` path) while the client is
absent or not connected is a no-op: the store is unchanged and no frame is
written to the transport. -/
theorem c9_send_requires_connected (st : StoreState) (text : String) (now : Nat)
    (h : ∀ c, st.client = some c → c.isConnected = false) :
    storeSendMessage st text now = (st, []) := by
  unfold storeSendMessage
  cases hc : st.client with
  | none => rfl
  | some c => simp [h c hc]

/-- Concrete store used to instantiate C9: no client attached. -/
def c9Store : StoreState :=
  { client := none
    activeSessionKey := "main"
    sessionChats := fun _ => none }

/-- C9, at a concrete input: no client, so `chat.send` is a no-op and
writes nothing. -/
theorem c9_witness :
    storeSendMessage c9Store "hello" 7 = (c9Store, []) :=
  c9_send_requires_connected c9Store "hello" 7 (fun _ hc => Option.noConfusion hc)

/-- C10: a chat event without a session key (absent or empty) is folded
into the currently active session's chat; all other sessions are
untouched. -/
theorem c10_missing_session_key (st : StoreState) (p : ChatPayload) (now : Nat)
    (h : p.sessionKey = none ∨ p.sessionKey = some "") :
    (onChatStore st p now).sessionChats st.activeSessionKey =
      some (applyChatEvent ((st.sessionChats st.activeSessionKey).getD emptyChat)
        p now) ∧
    ∀ k, k ≠ st.activeSessionKey →
      (onChatStore st p now).sessionChats k = st.sessionChats k := by
  have hkey : (match p.sessionKey with
      | some s => if s = "" then st.activeSessionKey else s
      | none => st.activeSessionKey) = st.activeSessionKey := by
    rcases h with h | h <;> simp [h]
  unfold onChatStore
  rw [hkey]
  exact ⟨by simp, fun k hk => by simp [hk]⟩

/-- Concrete store used to instantiate C10: active session "main". -/
def c10Store : StoreState :=
  { client := none
    activeSessionKey := "main"
    sessionChats := fun _ => none }

/-- Concrete payload used to instantiate C10: a delta with no session
key. -/
def c10Payload : ChatPayload :=
  { runId := "r1"
    sessionKey := none
    state := ChatState.delta
    message := some (MsgContent.str "hi") }

/-- C10, at a concrete input: a delta with no session key lands in the
active session "main"; session "other" is untouched. -/
theorem c10_witness :
    (onChatStore c10Store c10Payload 3).sessionChats "main" =
      some (applyChatEvent emptyChat c10Payload 3) ∧
    (onChatStore c10Store c10Payload 3).sessionChats "other" = none := by
  obtain ⟨h1, h2⟩ := c10_missing_session_key c10Store c10Payload 3 (Or.inl rfl)
  exact ⟨h1, h2 "other" (by decide)⟩

/-- Auxiliary induction for C1: starting from a log whose last message does
not match the run, a delta sequence with non-empty total text appends
exactly one new partial assistant message carrying the whole
concatenation. -/
theorem foldChatEvents_fresh_aux (r : String) :
    ∀ (events : List (ChatPayload × Nat)) (init : SessionChat),
      (∀ e ∈ events, e.1.state = ChatState.delta ∧ e.1.runId = r) →
      (∀ last, init.messages.getLast? = some last →
        matchesPartialRun last r = false) →
      concatExtract events ≠ "" →
      ∃ ts, (foldChatEvents init events).messages =
        init.messages ++
          [{ role := Role.assistant, content := concatExtract events,
             runId := some r, ts := ts, aborted := false, isPartial := true }]
  | [], init => by
    intro _ _ hne
    exact absurd rfl hne
  | (p, t) :: rest, init => by
    intro hall hfresh hne
    obtain ⟨hdelta, hrun⟩ := hall (p, t) (List.mem_cons_self _ _)
    have hrunp : p.runId = r := hrun
    have hdeltap : p.state = ChatState.delta := hdelta
    have hall' : ∀ e ∈ rest, e.1.state = ChatState.delta ∧ e.1.runId = r :=
      fun e he => hall e (List.mem_cons_of_mem _ he)
    have hfold : foldChatEvents init ((p, t) :: rest) =
        foldChatEvents (applyChatEvent init p t) rest := rfl
    by_cases hz : extractContent p.message = ""
    · -- empty extracted text: this event leaves the message list unchanged
      have hstep : (applyChatEvent init p t).messages = init.messages := by
        unfold applyChatEvent
        rw [hdeltap]
        cases hlast : init.messages.getLast? with
        | none => simp [hz]
        | some last =>
          have := hfresh last hlast
          rw [hrunp] at *
          simp [this, hz]
      have hne' : concatExtract rest ≠ "" := by
        have : concatExtract ((p, t) :: rest) = concatExtract rest := by
          simp [concatExtract, hz]
        rwa [this] at hne
      have hfresh' : ∀ last, (applyChatEvent init p t).messages.getLast? = some last →
          matchesPartialRun last r = false := by
        rw [hstep]; exact hfresh
      obtain ⟨ts, hts⟩ := foldChatEvents_fresh_aux r rest
        (applyChatEvent init p t) hall' hfresh' hne'
      refine ⟨ts, ?_⟩
      rw [hfold, hts, hstep]
      simp [concatExtract, hz]
    · -- non-empty extracted text: a fresh partial assistant message is pushed
      have hstep : (applyChatEvent init p t).messages =
          init.messages ++
            [{ role := Role.assistant, content := extractContent p.message,
               runId := some r, ts := t, aborted := false, isPartial := true }] := by
        unfold applyChatEvent
        rw [hdeltap]
        cases hlast : init.messages.getLast? with
        | none =>
          have hnil : init.messages = [] := List.getLast?_eq_none_iff.mp hlast
          simp [hz, hnil, hrunp]
        | some last =>
          have := hfresh last hlast
          rw [hrunp] at *
          simp [this, hz]
      have hmatch : matchesPartialRun
          { role := Role.assistant, content := extractContent p.message,
            runId := some r, ts := t, aborted := false, isPartial := true } r = true := by
        simp [matchesPartialRun]
      have happ := foldChatEvents_matching_last r rest (applyChatEvent init p t)
        init.messages
        { role := Role.assistant, content := extractContent p.message,
          runId := some r, ts := t, aborted := false, isPartial := true }
        hstep hmatch hall'
      refine ⟨t, ?_⟩
      rw [hfold, happ]
      simp [concatExtract]

/-- Concrete payload used to refute claim C1: a delta whose message content
has no text-typed segment, so its extracted text is empty. -/
def c1Payload : ChatPayload :=
  { runId := "r1"
    sessionKey := some "s1"
    state := ChatState.delta
    message := some (MsgContent.segs [{ type := "tool_use", text := none }]) }

/-- C1 counterexample: one delta event whose extracted text is empty (a
segment list with no text segment), delivered to a fresh session.  The
concatenation of extracted texts is `""`, but the log afterwards contains
no assistant message at all — the `delta` branch only appends a new message
when the extracted text is non-empty. -/
theorem c1_counterexample :
    concatExtract [(c1Payload, 0)] = "" ∧
    ¬ ∃ m, m ∈ (foldChatEvents emptyChat [(c1Payload, 0)]).messages ∧
      m.role = Role.assistant ∧ m.content = concatExtract [(c1Payload, 0)] := by
  have hmsgs : (foldChatEvents emptyChat [(c1Payload, 0)]).messages = [] := by
    decide
  refine ⟨by decide, ?_⟩
  rintro ⟨m, hm, -⟩
  rw [hmsgs] at hm
  exact List.not_mem_nil m hm

/-- C1 amended: for an ordered sequence of delta events sharing one runId,
delivered to a session whose log does not already end in a partial
assistant message for that runId, with no intervening final/aborted/error
event, and whose concatenated extracted text is non-empty, the log
afterwards is the prior log plus exactly one new partial assistant message
whose content is the concatenation, in arrival order, of each event's
extracted text. -/
theorem c1_amended_delta_accumulation (init : SessionChat) (r : String)
    (events : List (ChatPayload × Nat))
    (hall : ∀ e ∈ events, e.1.state = ChatState.delta ∧ e.1.runId = r)
    (hfresh : ∀ last, init.messages.getLast? = some last →
      ¬(last.role = Role.assistant ∧ last.runId = some r ∧
        last.isPartial = true))
    (hne : concatExtract events ≠ "") :
    ∃ ts, (foldChatEvents init events).messages =
      init.messages ++
        [{ role := Role.assistant, content := concatExtract events,
           runId := some r, ts := ts, aborted := false, isPartial := true }] := by
  apply foldChatEvents_fresh_aux r events init hall ?fresh hne
  case fresh =>
    intro last hlast
    have hnot := hfresh last hlast
    rw [Bool.eq_false_iff]
    intro htrue
    unfold matchesPartialRun at htrue
    rw [Bool.and_eq_true, Bool.and_eq_true] at htrue
    exact hnot ⟨of_decide_eq_true htrue.1.1, of_decide_eq_true htrue.1.2, htrue.2⟩

/-- Events used to instantiate the amended C1: two text deltas "Hel" and
"lo" for run "r1". -/
def c1WitnessEvents : List (ChatPayload × Nat) :=
  [({ runId := "r1", sessionKey := some "s1", state := ChatState.delta,
      message := some (MsgContent.str "Hel") }, 5),
   ({ runId := "r1", sessionKey := some "s1", state := ChatState.delta,
      message := some (MsgContent.segs [{ type := "text", text := some "lo" }]) }, 6)]

/-- Amended C1, at a concrete input: deltas "Hel" then "lo" on a fresh
session produce one partial assistant message "Hello". -/
theorem c1_amended_witness :
    concatExtract c1WitnessEvents ≠ "" ∧
    ∃ ts, (foldChatEvents emptyChat c1WitnessEvents).messages =
      [{ role := Role.assistant, content := concatExtract c1WitnessEvents,
         runId := some "r1", ts := ts, aborted := false, isPartial := true }] := by
  refine ⟨by decide, ?_⟩
  have h := c1_amended_delta_accumulation emptyChat "r1" c1WitnessEvents
    (by decide)
    (fun last hlast => by simp [emptyChat] at hlast)
    (by decide)
  simpa [emptyChat] using h

/-- C5: for a `final`/`aborted`/`error` event, the assembler locates the
first message, scanning from the most recent backward, whose runId matches
the event's runId; `final` clears `partial` with no content mutation,
`aborted` additionally sets the aborted flag, `error` clears `partial` and
appends the formatted error annotation; and when no message matches, the
event synthesizes no message and leaves the log unchanged. -/
theorem c5_terminal_events (chat : SessionChat) (p : ChatPayload) (now : Nat)
    (hterm : p.state = ChatState.final ∨ p.state = ChatState.aborted ∨
      p.state = ChatState.error) :
    ((∀ m ∈ chat.messages, m.runId ≠ some p.runId) →
      (applyChatEvent chat p now).messages = chat.messages) ∧
    (∀ i m, chat.messages.get? i = some m → m.runId = some p.runId →
      (∀ j mj, chat.messages.get? j = some mj → i < j →
        mj.runId ≠ some p.runId) →
      ∃ m2, (applyChatEvent chat p now).messages = chat.messages.set i m2 ∧
        m2.role = m.role ∧ m2.runId = m.runId ∧ m2.ts = m.ts ∧
        m2.isPartial = false ∧
        (p.state = ChatState.final →
          m2.content = m.content ∧ m2.aborted = m.aborted) ∧
        (p.state = ChatState.aborted →
          m2.content = m.content ∧ m2.aborted = true) ∧
        (p.state = ChatState.error →
          m2.content = m.content ++ errorAnnotation p.errorMessage ∧
          m2.aborted = false)) := by
  constructor
  · intro hno
    have hnone : findLastIdx (fun m => m.runId = some p.runId) chat.messages
        = none := by
      rw [findLastIdx_none_iff]
      intro a ha
      simpa using hno a ha
    rcases hterm with hs | hs | hs <;>
      simp only [applyChatEvent, hs, hnone]
  · intro i m hget hrun hafter
    have hsome : findLastIdx (fun m => m.runId = some p.runId) chat.messages
        = some i := by
      apply findLastIdx_eq_some_of_spec _ _ _ m hget (by simpa using hrun)
      intro j mj hj hij
      simpa using hafter j mj hj hij
    have hgetE : chat.messages[i]? = some m := by
      simpa [List.get?_eq_getElem?] using hget
    rcases hterm with hs | hs | hs
    · refine ⟨{ m with isPartial := false }, ?_, rfl, rfl, rfl, rfl,
        fun _ => ⟨rfl, rfl⟩, fun hc => ?_, fun hc => ?_⟩
      · simp [applyChatEvent, hs, hsome, hgetE]
      · rw [hs] at hc; exact ChatState.noConfusion hc
      · rw [hs] at hc; exact ChatState.noConfusion hc
    · refine ⟨{ m with isPartial := false
                       aborted := true }, ?_, rfl, rfl,
        rfl, rfl, fun hc => ?_, fun _ => ⟨rfl, rfl⟩, fun hc => ?_⟩
      · simp [applyChatEvent, hs, hsome, hgetE]
      · rw [hs] at hc; exact ChatState.noConfusion hc
      · rw [hs] at hc; exact ChatState.noConfusion hc
    · refine ⟨{ m with isPartial := false
                       aborted := false
                       content := m.content ++ errorAnnotation p.errorMessage },
        ?_, rfl, rfl, rfl, rfl, fun hc => ?_, fun hc => ?_, fun _ => ⟨rfl, rfl⟩⟩
      · simp [applyChatEvent, hs, hsome, hgetE]
      · rw [hs] at hc; exact ChatState.noConfusion hc
      · rw [hs] at hc; exact ChatState.noConfusion hc

/-- Concrete session used to instantiate C5: a user message followed by a
partial assistant message for run "r1". -/
def c5Chat : SessionChat :=
  { messages :=
      [{ role := Role.user, content := "question", ts := 1 },
       { role := Role.assistant, content := "answer", runId := some "r1",
         ts := 2, aborted := false, isPartial := true }]
    streaming := true
    streamingRunId := some "r1" }

/-- Concrete payload used to instantiate C5: a `final` event for run "r1". -/
def c5Payload : ChatPayload := { runId := "r1", state := ChatState.final }

/-- C5, at a concrete input: the `final` event freezes the matching
assistant message in place, leaving its content untouched. -/
theorem c5_witness :
    (applyChatEvent c5Chat c5Payload 9).messages =
      [{ role := Role.user, content := "question", ts := 1 },
       { role := Role.assistant, content := "answer", runId := some "r1",
         ts := 2, aborted := false, isPartial := false }] := by
  obtain ⟨-, h2⟩ := c5_terminal_events c5Chat c5Payload 9 (Or.inl rfl)
  have hafter : ∀ j mj, c5Chat.messages.get? j = some mj → 1 < j →
      mj.runId ≠ some c5Payload.runId := by
    intro j mj hj hij
    match j, hj, hij with
    | 0, _, hij => exact absurd hij (by omega)
    | 1, _, hij => exact absurd hij (by omega)
    | (n + 2), hj, _ => exact absurd hj (by simp [c5Chat])
  obtain ⟨m2, hset, hrole, hrun2, hts, hpart, hfin, -, -⟩ :=
    h2 1
      { role := Role.assistant, content := "answer", runId := some "r1",
        ts := 2, aborted := false, isPartial := true }
      (by decide) (by decide) hafter
  obtain ⟨hcontent, habort⟩ := hfin rfl
  have hm2 : m2 =
      { role := Role.assistant, content := "answer", runId := some "r1",
        ts := 2, aborted := false, isPartial := false } := by
    cases m2
    simp_all
  rw [hset, hm2]
  decide
